import Mathlib

/-!
Verification development for the `skulpture.xyz` lead-capture service.

The subject is the `POST /lead` handler (`src/api/main.go`, `handler`,
lines 144-301): it parses a multipart form, validates the contact fields,
uploads the attached files one by one to Google Drive while tracking the
storage quota, attempts a rollback when the quota is reached (a loop that,
as proved below, never issues an actual deletion request), merges the
upload links into the enquiry text and finally sends a notification email.

The shallow embedding below translates the handler and its upload loop
directly from the Go source.  External services (multipart parsing, the
Drive `About.Get` quota query, `FileHeader.Open`, `Files.Create`,
`Files.Delete`, Postmark) are modelled by recording each call in an effect
trace and by letting the request carry the outcome every such call would
produce (a standard oracle-style embedding of I/O).  Go `int64` arithmetic
on sizes and quota figures is modelled by `Int`: the handler caps a request
at 20 MB (`MAX_REQUEST_SIZE`) and Drive quotas are far below `2^63`, so no
claim under study depends on overflow behaviour.

A second model (`Concurrent` namespace, further down) embeds the
goroutine-based revision of the handler found in `src/unnamed/part_000`
(lines 205-284) as a small-step transition system, to settle the
concurrency claim about it.
-/

/-- Result of a successful `driveService.Files.Create(...).Fields("id, webContentLink")`
call (`src/api/main.go` lines 225-238): the fields the handler reads. -/
structure DriveFile where
  id : String
  webContentLink : String
deriving DecidableEq

/-- One entry of `r.MultipartForm.File["files"]` together with the oracle
for the two fallible per-file calls the handler makes on it:
`openOk` tells whether `fileHeader.Open()` (line 217) succeeds, and
`createRes` is `some res` when `driveService.Files.Create(...).Do()`
(lines 225-238) succeeds and `none` when it returns an error. -/
structure FileHeader where
  filename : String
  size : Int
  openOk : Bool
  createRes : Option DriveFile
deriving DecidableEq

/-- The `about.StorageQuota` fields read by the handler
(`src/api/main.go` lines 200-201). -/
structure StorageQuota where
  limit : Int
  usageInDrive : Int
deriving DecidableEq

/-- One call actually issued to the Google Drive backend, in the order the
handler issues them.  File-directed calls are identified by the file's
position in the input list (the loop of line 205 walks `files` in order).
`deleteFile` stands for an executed `Files.Delete(id).Do()` request; the
serial handler never issues one, because line 255 builds the delete call
without `.Do()`. -/
inductive DriveCall where
  | aboutGet
  | openFile (idx : Nat)
  | createFile (idx : Nat)
  | deleteFile (id : String)
deriving DecidableEq

/-- How the attachment block of the handler ends:
`serverError` = `http.Error(..., http.StatusInternalServerError)` (500),
`insufficientStorage` = `http.Error(..., http.StatusInsufficientStorage)` (507),
`completed e` = fall-through with `body.Enquiry = e`. -/
inductive BatchOutcome where
  | serverError (msg : String)
  | insufficientStorage
  | completed (enquiry : String)
deriving DecidableEq

/-- The loop-carried state of the upload loop (`src/api/main.go` lines
188-189, 201 and 205-251): the running usage counter, the two accumulator
slices and the trace of Drive calls issued so far. -/
structure LoopSt where
  currentUsage : Int
  uploadedFiles : List DriveFile
  uploadedFileLinks : List String
  calls : List DriveCall
deriving DecidableEq

/-- How the upload loop was left: `normal` covers both running off the end
of `files` and the `break` at line 214; `openErr` and `createErr` are the
early `return`s at lines 219-221 and 242-244 after `http.Error(..., 500)`. -/
inductive LoopExit where
  | normal
  | openErr (msg : String)
  | createErr (msg : String)
deriving DecidableEq

/-- The upload loop of `src/api/main.go` lines 205-251, translated
clause for clause.  `idx` is the position of the head of `files` in the
original list.  Per iteration: add the file's size to `currentUsage`
(line 208); `break` if the new usage equals `limit` (lines 211-215);
attempt `fileHeader.Open()` (line 217), returning 500 on failure;
attempt `Files.Create` (lines 225-245), returning 500 on failure;
on success append the result to `uploadedFiles` and the `"- %s"` bullet
of its link to `uploadedFileLinks` (lines 249-250). -/
def uploadLoop (limit : Int) : Nat → List FileHeader → LoopSt → LoopSt × LoopExit
  | _, [], s => (s, LoopExit.normal)
  | idx, fh :: rest, s =>
    let usage := s.currentUsage + fh.size
    if usage = limit then
      ({ s with currentUsage := usage }, LoopExit.normal)
    else
      let sOpened : LoopSt :=
        { s with currentUsage := usage, calls := s.calls ++ [DriveCall.openFile idx] }
      if fh.openOk = false then
        (sOpened, LoopExit.openErr ("open " ++ fh.filename))
      else
        let sCreated : LoopSt :=
          { sOpened with calls := sOpened.calls ++ [DriveCall.createFile idx] }
        match fh.createRes with
        | none => (sCreated, LoopExit.createErr ("create " ++ fh.filename))
        | some res =>
          uploadLoop limit (idx + 1) rest
            { sCreated with
              uploadedFiles := sCreated.uploadedFiles ++ [res],
              uploadedFileLinks :=
                sCreated.uploadedFileLinks ++ ["- " ++ res.webContentLink] }

/-- The final assembly step of `src/api/main.go` lines 264-268:
`fmt.Appendf([]byte(body.Enquiry), "\nAttached files:\n%s", strings.Join(uploadedFileLinks, "\n"))`,
applied to the already-formatted `"- %s"` bullet lines. -/
def appendAttachedFiles (enquiry : String) (bullets : List String) : String :=
  enquiry ++ "\nAttached files:\n" ++ String.intercalate "\n" bullets

/-- The enquiry-text merge as a function of the raw upload links: the
composition of the bullet formatting `fmt.Sprintf("- %s", res.WebContentLink)`
(`src/api/main.go` line 250) with the guarded append of lines 264-268.
With no links the enquiry is left untouched (the `len(uploadedFileLinks) > 0`
guard fails and `body.Enquiry` is never reassigned). -/
def mergeLinks (originalText : String) (links : List String) : String :=
  if links.length > 0 then
    appendAttachedFiles originalText (links.map (fun l => "- " ++ l))
  else
    originalText

/-- The attachment block of the handler, `src/api/main.go` lines 190-269.
`quotaRes` is the oracle for `driveService.About.Get().Fields("storageQuota").Do()`
(lines 193-199): `none` means the query errors, in which case the handler
answers 500 having issued only that one backend call.  Otherwise the upload
loop runs; a loop error propagates as 500; if afterwards `currentUsage == limit`
(line 253) the handler answers 507 after running the rollback loop of
lines 254-256 — which issues NO backend call: `driveService.Files.Delete(file.Id)`
at line 255 only constructs a `*FilesDeleteCall` builder and is missing the
`.Do()` that every other call in the file chains (and that the concurrent
revision writes explicitly, `src/unnamed/part_000` lines 275-277), so no
deletion HTTP request is ever sent and the call trace is unchanged.
Otherwise the links are merged into the enquiry (lines 264-268).  With an
empty file list the whole block is skipped (line 192) and no backend call
is made. -/
def processFiles (quotaRes : Option StorageQuota) (files : List FileHeader)
    (enquiry : String) : BatchOutcome × List DriveCall :=
  if files.length > 0 then
    match quotaRes with
    | none => (BatchOutcome.serverError "gdrive about", [DriveCall.aboutGet])
    | some q =>
      let s0 : LoopSt := ⟨q.usageInDrive, [], [], [DriveCall.aboutGet]⟩
      match uploadLoop q.limit 0 files s0 with
      | (s, LoopExit.openErr m) => (BatchOutcome.serverError m, s.calls)
      | (s, LoopExit.createErr m) => (BatchOutcome.serverError m, s.calls)
      | (s, LoopExit.normal) =>
        if s.currentUsage = q.limit then
          (BatchOutcome.insufficientStorage, s.calls)
        else
          if s.uploadedFileLinks.length > 0 then
            (BatchOutcome.completed (appendAttachedFiles enquiry s.uploadedFileLinks),
              s.calls)
          else
            (BatchOutcome.completed enquiry, s.calls)
  else
    (BatchOutcome.completed enquiry, [])

/-- The inputs of one `POST /lead` request together with the oracles for
every external call the handler makes (`src/api/main.go` lines 144-300):
`parseOk` for `r.ParseMultipartForm` (line 146), `validationErrs` for
`validate.Struct(body)` (lines 171-186, empty list = valid), `quotaRes`
and the per-file oracles as above, and the two environment lookups of
lines 275-287. -/
structure Request where
  parseOk : Bool
  validationErrs : List String
  email : String
  enquiry : String
  files : List FileHeader
  quotaRes : Option StorageQuota
  envTemplateId : Option Int
  envFrom : String

/-- An externally visible call of the handler: a Drive call or the
Postmark `SendTemplatedEmail` of `src/api/main.go` lines 289-295. -/
inductive Call where
  | drive (c : DriveCall)
  | sendEmail (targetAddress : String) (enquiry : String)
deriving DecidableEq

/-- How the handler as a whole ends: the early 500 of line 147, the 400 of
line 183, a 500/507 out of the attachment block, one of the two `panic`s of
lines 279 and 286, or the normal fall-through after the email send. -/
inductive HandlerResult where
  | internalError (msg : String)
  | badRequest (msg : String)
  | insufficientStorage
  | panicked (msg : String)
  | ok (enquiry : String)
deriving DecidableEq

/-- The `POST /lead` handler, `src/api/main.go` lines 144-301, as a
function from the request (with its oracles) to the response outcome and
the trace of external calls.  Control flow is translated in source order:
multipart parse, field validation, the attachment block (`processFiles`),
the `POSTMARK_TEMPLATE` / `POSTMARK_FROM` environment checks, then the
`SendTemplatedEmail` call (a Postmark error is only logged, line 296-298,
and does not change the outcome). -/
def handler (req : Request) : HandlerResult × List Call :=
  if req.parseOk = false then
    (HandlerResult.internalError "multipart", [])
  else
    if req.validationErrs.length > 0 then
      (HandlerResult.badRequest
        ("Invalid field values:\n" ++ String.intercalate "\n" req.validationErrs), [])
    else
      match processFiles req.quotaRes req.files req.enquiry with
      | (BatchOutcome.serverError m, dcalls) =>
        (HandlerResult.internalError m, dcalls.map Call.drive)
      | (BatchOutcome.insufficientStorage, dcalls) =>
        (HandlerResult.insufficientStorage, dcalls.map Call.drive)
      | (BatchOutcome.completed enquiry, dcalls) =>
        match req.envTemplateId with
        | none => (HandlerResult.panicked "POSTMARK_TEMPLATE", dcalls.map Call.drive)
        | some _ =>
          if req.envFrom = "" then
            (HandlerResult.panicked "POSTMARK_FROM", dcalls.map Call.drive)
          else
            (HandlerResult.ok enquiry,
              dcalls.map Call.drive ++ [Call.sendEmail req.email enquiry])

/-- Total size of a list of file headers, as summed by the repeated
`currentUsage += fileHeader.Size` of `src/api/main.go` line 208. -/
def sizeSum (files : List FileHeader) : Int :=
  (files.map (fun f => f.size)).sum

/-- A file on which both per-file calls succeed. -/
def uploadOk (f : FileHeader) : Prop :=
  f.openOk = true ∧ f.createRes.isSome = true

instance (f : FileHeader) : Decidable (uploadOk f) := by
  unfold uploadOk; infer_instance

/-- The Drive file a successful `Files.Create` call returns for `f`
(defaulting when the call fails; only used under `uploadOk`). -/
def uploadedOf (f : FileHeader) : DriveFile :=
  f.createRes.getD ⟨"", ""⟩

/-- The `"- %s"` bullet the loop stores for `f` (`src/api/main.go` line 250). -/
def linkBullet (f : FileHeader) : String :=
  "- " ++ (uploadedOf f).webContentLink

/-- The open/create call pairs the loop issues for `n` consecutive files
starting at position `i`. -/
def opensCreates : Nat → Nat → List DriveCall
  | _, 0 => []
  | i, n + 1 =>
    DriveCall.openFile i :: DriveCall.createFile i :: opensCreates (i + 1) n

/-- Whether a handler call goes to the Drive backend. -/
def isDriveCall : Call → Bool
  | Call.drive _ => true
  | Call.sendEmail _ _ => false

theorem sizeSum_nil : sizeSum [] = 0 := rfl

theorem sizeSum_cons (f : FileHeader) (l : List FileHeader) :
    sizeSum (f :: l) = f.size + sizeSum l := by
  simp [sizeSum]

theorem uploadLoop_nil (limit : Int) (i : Nat) (s : LoopSt) :
    uploadLoop limit i [] s = (s, LoopExit.normal) := rfl

theorem uploadLoop_cons_break (limit : Int) (i : Nat) (fh : FileHeader)
    (rest : List FileHeader) (s : LoopSt) (h : s.currentUsage + fh.size = limit) :
    uploadLoop limit i (fh :: rest) s =
      ({ s with currentUsage := s.currentUsage + fh.size }, LoopExit.normal) := by
  simp [uploadLoop, h]

theorem uploadLoop_cons_openErr (limit : Int) (i : Nat) (fh : FileHeader)
    (rest : List FileHeader) (s : LoopSt) (hne : s.currentUsage + fh.size ≠ limit)
    (hopen : fh.openOk = false) :
    uploadLoop limit i (fh :: rest) s =
      ({ s with
          currentUsage := s.currentUsage + fh.size,
          calls := s.calls ++ [DriveCall.openFile i] },
        LoopExit.openErr ("open " ++ fh.filename)) := by
  simp [uploadLoop, hne, hopen]

theorem uploadLoop_cons_createErr (limit : Int) (i : Nat) (fh : FileHeader)
    (rest : List FileHeader) (s : LoopSt) (hne : s.currentUsage + fh.size ≠ limit)
    (hopen : fh.openOk = true) (hres : fh.createRes = none) :
    uploadLoop limit i (fh :: rest) s =
      ({ s with
          currentUsage := s.currentUsage + fh.size,
          calls := s.calls ++ [DriveCall.openFile i, DriveCall.createFile i] },
        LoopExit.createErr ("create " ++ fh.filename)) := by
  simp [uploadLoop, hne, hopen, hres]

theorem uploadLoop_cons_ok (limit : Int) (i : Nat) (fh : FileHeader)
    (rest : List FileHeader) (s : LoopSt) (hne : s.currentUsage + fh.size ≠ limit)
    (hopen : fh.openOk = true) (r : DriveFile) (hres : fh.createRes = some r) :
    uploadLoop limit i (fh :: rest) s =
      uploadLoop limit (i + 1) rest
        { currentUsage := s.currentUsage + fh.size,
          uploadedFiles := s.uploadedFiles ++ [r],
          uploadedFileLinks := s.uploadedFileLinks ++ ["- " ++ r.webContentLink],
          calls := s.calls ++ [DriveCall.openFile i, DriveCall.createFile i] } := by
  simp [uploadLoop, hne, hopen, hres]

theorem uploadLoop_all_ok (limit : Int) (files : List FileHeader) :
    ∀ (i : Nat) (s : LoopSt),
      (∀ f ∈ files, uploadOk f) →
      (∀ k, k < files.length → s.currentUsage + sizeSum (files.take (k + 1)) ≠ limit) →
      uploadLoop limit i files s =
        ({ currentUsage := s.currentUsage + sizeSum files,
           uploadedFiles := s.uploadedFiles ++ files.map uploadedOf,
           uploadedFileLinks := s.uploadedFileLinks ++ files.map linkBullet,
           calls := s.calls ++ opensCreates i files.length }, LoopExit.normal) := by
  induction files with
  | nil =>
    intro i s _ _
    simp [uploadLoop_nil, sizeSum_nil, opensCreates]
  | cons fh rest ih =>
    intro i s hok hne
    obtain ⟨hopen, hsome⟩ := hok fh (List.mem_cons_self fh rest)
    obtain ⟨r, hr⟩ := Option.isSome_iff_exists.mp hsome
    have hne0 : s.currentUsage + fh.size ≠ limit := by
      have h0 := hne 0 (by simp)
      simpa [sizeSum_cons, sizeSum_nil] using h0
    rw [uploadLoop_cons_ok limit i fh rest s hne0 hopen r hr]
    rw [ih (i + 1) _ (fun f hf => hok f (List.mem_cons_of_mem fh hf))
      (fun k hk => by
        have h1 := hne (k + 1) (by simpa using Nat.succ_lt_succ hk)
        rw [List.take_succ_cons, sizeSum_cons, ← add_assoc] at h1
        exact h1)]
    simp [sizeSum_cons, opensCreates, uploadedOf, linkBullet, hr, add_assoc]

theorem uploadLoop_break_at (limit : Int) (files : List FileHeader) :
    ∀ (N i : Nat) (s : LoopSt),
      N < files.length →
      (∀ f ∈ files.take N, uploadOk f) →
      (∀ k, k < N → s.currentUsage + sizeSum (files.take (k + 1)) ≠ limit) →
      s.currentUsage + sizeSum (files.take (N + 1)) = limit →
      uploadLoop limit i files s =
        ({ currentUsage := limit,
           uploadedFiles := s.uploadedFiles ++ (files.take N).map uploadedOf,
           uploadedFileLinks := s.uploadedFileLinks ++ (files.take N).map linkBullet,
           calls := s.calls ++ opensCreates i N }, LoopExit.normal) := by
  induction files with
  | nil =>
    intro N i s hN
    exact absurd hN (by simp)
  | cons fh rest ih =>
    intro N i s hN hok hne heq
    cases N with
    | zero =>
      have heq0 : s.currentUsage + fh.size = limit := by
        simpa [sizeSum_cons, sizeSum_nil] using heq
      rw [uploadLoop_cons_break limit i fh rest s heq0]
      simp [opensCreates, heq0]
    | succ M =>
      obtain ⟨hopen, hsome⟩ := hok fh (by simp)
      obtain ⟨r, hr⟩ := Option.isSome_iff_exists.mp hsome
      have hne0 : s.currentUsage + fh.size ≠ limit := by
        have h0 := hne 0 (Nat.succ_pos M)
        simpa [sizeSum_cons, sizeSum_nil] using h0
      rw [uploadLoop_cons_ok limit i fh rest s hne0 hopen r hr]
      rw [ih M (i + 1) _ (by simpa using hN)
        (fun f hf => hok f (by simp [hf]))
        (fun k hk => by
          have h1 := hne (k + 1) (Nat.succ_lt_succ hk)
          rw [List.take_succ_cons, sizeSum_cons, ← add_assoc] at h1
          exact h1)
        (by
          rw [List.take_succ_cons, sizeSum_cons, ← add_assoc] at heq
          exact heq)]
      simp [opensCreates, uploadedOf, linkBullet, hr]

theorem uploadLoop_openErr_at (limit : Int) (pre : List FileHeader) :
    ∀ (fBad : FileHeader) (post : List FileHeader) (i : Nat) (s : LoopSt),
      (∀ f ∈ pre, uploadOk f) →
      (∀ k, k < pre.length → s.currentUsage + sizeSum (pre.take (k + 1)) ≠ limit) →
      s.currentUsage + sizeSum pre + fBad.size ≠ limit →
      fBad.openOk = false →
      uploadLoop limit i (pre ++ fBad :: post) s =
        ({ currentUsage := s.currentUsage + sizeSum pre + fBad.size,
           uploadedFiles := s.uploadedFiles ++ pre.map uploadedOf,
           uploadedFileLinks := s.uploadedFileLinks ++ pre.map linkBullet,
           calls := s.calls ++ opensCreates i pre.length
             ++ [DriveCall.openFile (i + pre.length)] },
          LoopExit.openErr ("open " ++ fBad.filename)) := by
  induction pre with
  | nil =>
    intro fBad post i s _ _ hne hopen
    rw [List.nil_append]
    rw [uploadLoop_cons_openErr limit i fBad post s (by simpa [sizeSum_nil] using hne) hopen]
    simp [sizeSum_nil, opensCreates]
  | cons fh rest ih =>
    intro fBad post i s hok hne hlast hopen
    obtain ⟨hfhOpen, hsome⟩ := hok fh (by simp)
    obtain ⟨r, hr⟩ := Option.isSome_iff_exists.mp hsome
    have hne0 : s.currentUsage + fh.size ≠ limit := by
      have h0 := hne 0 (Nat.succ_pos rest.length)
      simpa [sizeSum_cons, sizeSum_nil] using h0
    rw [List.cons_append]
    rw [uploadLoop_cons_ok limit i fh (rest ++ fBad :: post) s hne0 hfhOpen r hr]
    rw [ih fBad post (i + 1) _
      (fun f hf => hok f (by simp [hf]))
      (fun k hk => by
        have h1 := hne (k + 1) (Nat.succ_lt_succ hk)
        rw [List.take_succ_cons, sizeSum_cons, ← add_assoc] at h1
        exact h1)
      (by
        rw [sizeSum_cons, ← add_assoc] at hlast
        exact hlast)
      hopen]
    simp [sizeSum_cons, opensCreates, uploadedOf, linkBullet, hr, add_assoc,
      Nat.add_comm, Nat.add_left_comm]

theorem uploadLoop_createErr_at (limit : Int) (pre : List FileHeader) :
    ∀ (fBad : FileHeader) (post : List FileHeader) (i : Nat) (s : LoopSt),
      (∀ f ∈ pre, uploadOk f) →
      (∀ k, k < pre.length → s.currentUsage + sizeSum (pre.take (k + 1)) ≠ limit) →
      s.currentUsage + sizeSum pre + fBad.size ≠ limit →
      fBad.openOk = true →
      fBad.createRes = none →
      uploadLoop limit i (pre ++ fBad :: post) s =
        ({ currentUsage := s.currentUsage + sizeSum pre + fBad.size,
           uploadedFiles := s.uploadedFiles ++ pre.map uploadedOf,
           uploadedFileLinks := s.uploadedFileLinks ++ pre.map linkBullet,
           calls := s.calls ++ opensCreates i pre.length
             ++ [DriveCall.openFile (i + pre.length),
                 DriveCall.createFile (i + pre.length)] },
          LoopExit.createErr ("create " ++ fBad.filename)) := by
  induction pre with
  | nil =>
    intro fBad post i s _ _ hne hopen hres
    rw [List.nil_append]
    rw [uploadLoop_cons_createErr limit i fBad post s
      (by simpa [sizeSum_nil] using hne) hopen hres]
    simp [sizeSum_nil, opensCreates]
  | cons fh rest ih =>
    intro fBad post i s hok hne hlast hopen hres
    obtain ⟨hfhOpen, hsome⟩ := hok fh (by simp)
    obtain ⟨r, hr⟩ := Option.isSome_iff_exists.mp hsome
    have hne0 : s.currentUsage + fh.size ≠ limit := by
      have h0 := hne 0 (Nat.succ_pos rest.length)
      simpa [sizeSum_cons, sizeSum_nil] using h0
    rw [List.cons_append]
    rw [uploadLoop_cons_ok limit i fh (rest ++ fBad :: post) s hne0 hfhOpen r hr]
    rw [ih fBad post (i + 1) _
      (fun f hf => hok f (by simp [hf]))
      (fun k hk => by
        have h1 := hne (k + 1) (Nat.succ_lt_succ hk)
        rw [List.take_succ_cons, sizeSum_cons, ← add_assoc] at h1
        exact h1)
      (by
        rw [sizeSum_cons, ← add_assoc] at hlast
        exact hlast)
      hopen hres]
    simp [sizeSum_cons, opensCreates, uploadedOf, linkBullet, hr, add_assoc,
      Nat.add_comm, Nat.add_left_comm]

theorem mem_opensCreates (c : DriveCall) :
    ∀ (n i : Nat), c ∈ opensCreates i n →
      ∃ j, i ≤ j ∧ j < i + n ∧ (c = DriveCall.openFile j ∨ c = DriveCall.createFile j) := by
  intro n
  induction n with
  | zero => intro i h; exact absurd h (by simp [opensCreates])
  | succ m ih =>
    intro i h
    simp only [opensCreates, List.mem_cons] at h
    rcases h with h | h | h
    · exact ⟨i, le_refl i, by omega, Or.inl h⟩
    · exact ⟨i, le_refl i, by omega, Or.inr h⟩
    · obtain ⟨j, hij, hjn, hc⟩ := ih (i + 1) h
      exact ⟨j, by omega, by omega, hc⟩

theorem openFile_not_mem_opensCreates (j i n : Nat) (hj : i + n ≤ j) :
    DriveCall.openFile j ∉ opensCreates i n := by
  intro h
  obtain ⟨j2, _, hlt, hc | hc⟩ := mem_opensCreates _ n i h
  · injection hc with hjj
    omega
  · exact DriveCall.noConfusion hc

theorem createFile_not_mem_opensCreates (j i n : Nat) (hj : i + n ≤ j) :
    DriveCall.createFile j ∉ opensCreates i n := by
  intro h
  obtain ⟨j2, _, hlt, hc | hc⟩ := mem_opensCreates _ n i h
  · exact DriveCall.noConfusion hc
  · injection hc with hjj
    omega

theorem deleteFile_not_mem_opensCreates (id : String) (i n : Nat) :
    DriveCall.deleteFile id ∉ opensCreates i n := by
  intro h
  obtain ⟨j, _, _, hc | hc⟩ := mem_opensCreates _ n i h <;> exact DriveCall.noConfusion hc

theorem processFiles_nil (quotaRes : Option StorageQuota) (e : String) :
    processFiles quotaRes [] e = (BatchOutcome.completed e, []) := rfl

theorem processFiles_break_at (q : StorageQuota) (files : List FileHeader)
    (e : String) (N : Nat)
    (hN : N < files.length)
    (hok : ∀ f ∈ files.take N, uploadOk f)
    (hne : ∀ k, k < N → q.usageInDrive + sizeSum (files.take (k + 1)) ≠ q.limit)
    (heq : q.usageInDrive + sizeSum (files.take (N + 1)) = q.limit) :
    processFiles (some q) files e =
      (BatchOutcome.insufficientStorage, DriveCall.aboutGet :: opensCreates 0 N) := by
  have hpos : 0 < files.length := Nat.lt_of_le_of_lt (Nat.zero_le N) hN
  have hloop := uploadLoop_break_at q.limit files N 0
    ⟨q.usageInDrive, [], [], [DriveCall.aboutGet]⟩ hN hok hne heq
  simp [processFiles, hpos, hloop]

theorem processFiles_all_ok (q : StorageQuota) (files : List FileHeader) (e : String)
    (hpos : 0 < files.length)
    (hok : ∀ f ∈ files, uploadOk f)
    (hne : ∀ k, k < files.length →
      q.usageInDrive + sizeSum (files.take (k + 1)) ≠ q.limit) :
    processFiles (some q) files e =
      (BatchOutcome.completed (appendAttachedFiles e (files.map linkBullet)),
        DriveCall.aboutGet :: opensCreates 0 files.length) := by
  have hloop := uploadLoop_all_ok q.limit files 0
    ⟨q.usageInDrive, [], [], [DriveCall.aboutGet]⟩ hok hne
  have hfinal : q.usageInDrive + sizeSum files ≠ q.limit := by
    have h := hne (files.length - 1) (by omega)
    have hlen : files.length - 1 + 1 = files.length := by omega
    rw [hlen, List.take_length] at h
    exact h
  simp [processFiles, hpos, hloop, hfinal]

theorem processFiles_failure_at (q : StorageQuota) (pre : List FileHeader)
    (fBad : FileHeader) (post : List FileHeader) (e : String)
    (hok : ∀ f ∈ pre, uploadOk f)
    (hne : ∀ k, k < pre.length → q.usageInDrive + sizeSum (pre.take (k + 1)) ≠ q.limit)
    (hlast : q.usageInDrive + sizeSum pre + fBad.size ≠ q.limit)
    (hbad : ¬ uploadOk fBad) :
    ∃ m, processFiles (some q) (pre ++ fBad :: post) e =
      (BatchOutcome.serverError m,
        DriveCall.aboutGet :: (opensCreates 0 pre.length ++
          (if fBad.openOk = true
            then [DriveCall.openFile pre.length, DriveCall.createFile pre.length]
            else [DriveCall.openFile pre.length]))) := by
  have hlen : 0 < (pre ++ fBad :: post).length := by simp
  cases hopen : fBad.openOk with
  | false =>
    have hloop := uploadLoop_openErr_at q.limit pre fBad post 0
      ⟨q.usageInDrive, [], [], [DriveCall.aboutGet]⟩ hok hne hlast hopen
    refine ⟨"open " ++ fBad.filename, ?_⟩
    simp [processFiles, hlen, hloop, hopen]
  | true =>
    have hres : fBad.createRes = none := by
      rcases h : fBad.createRes with _ | r
      · rfl
      · exact absurd ⟨hopen, by rw [h]; rfl⟩ hbad
    have hloop := uploadLoop_createErr_at q.limit pre fBad post 0
      ⟨q.usageInDrive, [], [], [DriveCall.aboutGet]⟩ hok hne hlast hopen hres
    refine ⟨"create " ++ fBad.filename, ?_⟩
    simp [processFiles, hlen, hloop, hopen]

/-- Claim C7: the enquiry-text merge is a pure function of
`(originalText, links)`: with an empty link list it returns the original
text unchanged, and with a non-empty list it returns the original text
followed by a newline, the separator line "Attached files:", and one
"- <link>" bullet line per link in list order; in particular
`merge("Hello", ["http://a", "http://b"])` is
`"Hello\nAttached files:\n- http://a\n- http://b"`. -/
theorem mergeLinks_spec :
    (∀ t : String, mergeLinks t [] = t)
    ∧ (∀ (t l : String) (ls : List String),
        mergeLinks t (l :: ls) =
          t ++ "\nAttached files:\n"
            ++ String.intercalate "\n" ((l :: ls).map (fun x => "- " ++ x)))
    ∧ mergeLinks "Hello" ["http://a", "http://b"]
        = "Hello\nAttached files:\n- http://a\n- http://b" := by
  refine ⟨fun _ => rfl, fun t l ls => ?_, by rfl⟩
  simp [mergeLinks, appendAttachedFiles]

/-- Claim C4: for every request whose file list is empty, the attachment
block leaves the enquiry text unchanged and issues zero backend calls (no
quota query, no upload), and the handler as a whole issues no Drive call
at all on such a request. -/
theorem empty_files_no_backend_calls :
    (∀ (quotaRes : Option StorageQuota) (e : String),
      processFiles quotaRes [] e = (BatchOutcome.completed e, []))
    ∧ ∀ (pOk : Bool) (vErrs : List String) (em enq : String)
        (qr : Option StorageQuota) (tid : Option Int) (fr : String),
        ((handler ⟨pOk, vErrs, em, enq, [], qr, tid, fr⟩).2.all
          (fun c => !(isDriveCall c))) = true := by
  refine ⟨fun _ _ => rfl, ?_⟩
  intro pOk vErrs em enq qr tid fr
  cases pOk with
  | false => rfl
  | true =>
    by_cases hv : vErrs.length > 0
    · simp [handler, hv]
    · cases tid with
      | none => simp [handler, hv, processFiles]
      | some t =>
        by_cases hf : fr = ""
        · simp [handler, hv, processFiles, hf]
        · simp [handler, hv, processFiles, hf, isDriveCall]

/-- Claim C6: for every batch with at least one file, if the quota query
to the storage backend fails, the whole batch is aborted with a 500 before
any file is opened or uploaded: the only backend call issued is the quota
query itself. -/
theorem quota_query_failure_aborts (files : List FileHeader) (e : String)
    (h : 0 < files.length) :
    processFiles none files e =
      (BatchOutcome.serverError "gdrive about", [DriveCall.aboutGet]) := by
  simp [processFiles, h]

/-- Witness for `quota_query_failure_aborts` at a one-file batch. -/
theorem quota_query_failure_aborts_witness :
    0 < ([⟨"a.png", 3, true, some ⟨"A", "http://a"⟩⟩] : List FileHeader).length
    ∧ processFiles none [⟨"a.png", 3, true, some ⟨"A", "http://a"⟩⟩] "Hi"
        = (BatchOutcome.serverError "gdrive about", [DriveCall.aboutGet]) :=
  ⟨by decide,
    quota_query_failure_aborts [⟨"a.png", 3, true, some ⟨"A", "http://a"⟩⟩] "Hi" (by decide)⟩

/-- Claim C1 (the code contradicts its rollback conclusion): with quota
limit 7 and usage 0 and files of sizes 3 and 4, adding the second file's
size brings the projected usage to exactly the limit.  As the claim says,
the handler responds 507 and the second file is never opened or uploaded —
but the file already uploaded earlier is NOT deleted from remote storage:
the rollback loop at `src/api/main.go` lines 254-256 builds
`driveService.Files.Delete(file.Id)` without the `.Do()` that would issue
the request, so the trace ends with the successful create of file 0 and
contains no deletion call at all. -/
theorem serial_quota_hit_issues_no_deletion :
    processFiles (some ⟨7, 0⟩)
        [⟨"a.png", 3, true, some ⟨"A", "http://a"⟩⟩, ⟨"b.png", 4, true, some ⟨"B", "http://b"⟩⟩]
        "Hello"
      = (BatchOutcome.insufficientStorage,
          [DriveCall.aboutGet, DriveCall.openFile 0, DriveCall.createFile 0])
    ∧ DriveCall.deleteFile "A" ∉ (processFiles (some ⟨7, 0⟩)
        [⟨"a.png", 3, true, some ⟨"A", "http://a"⟩⟩, ⟨"b.png", 4, true, some ⟨"B", "http://b"⟩⟩]
        "Hello").2
    ∧ DriveCall.openFile 1 ∉ (processFiles (some ⟨7, 0⟩)
        [⟨"a.png", 3, true, some ⟨"A", "http://a"⟩⟩, ⟨"b.png", 4, true, some ⟨"B", "http://b"⟩⟩]
        "Hello").2 := by
  decide

/-- Counterexample to claim C2 as stated: in the serial handler of
`src/api/main.go`, when the second file's `Files.Create` call fails after
the first file uploaded successfully, the handler answers 500 but never
deletes the already-uploaded file "A" — no rollback deletion is issued. -/
theorem upload_failure_no_rollback_cex :
    (processFiles (some ⟨100, 0⟩)
        [⟨"a.png", 3, true, some ⟨"A", "http://a"⟩⟩, ⟨"b.png", 4, true, none⟩]
        "Hello").1 = BatchOutcome.serverError "create b.png"
    ∧ DriveCall.createFile 0 ∈ (processFiles (some ⟨100, 0⟩)
        [⟨"a.png", 3, true, some ⟨"A", "http://a"⟩⟩, ⟨"b.png", 4, true, none⟩]
        "Hello").2
    ∧ DriveCall.deleteFile "A" ∉ (processFiles (some ⟨100, 0⟩)
        [⟨"a.png", 3, true, some ⟨"A", "http://a"⟩⟩, ⟨"b.png", 4, true, none⟩]
        "Hello").2 := by
  decide

/-- Claim C2 (amended): when some file's upload (stream open or remote
create) fails mid-batch in the serial handler, the handler returns the
HTTP 500 error immediately and files after the failing one are never
opened, but — contrary to the original claim — files already uploaded in
the batch are NOT deleted from remote storage: no deletion call is issued
on this path. -/
theorem upload_failure_500_no_rollback (q : StorageQuota) (pre : List FileHeader)
    (fBad : FileHeader) (post : List FileHeader) (e : String)
    (hok : ∀ f ∈ pre, uploadOk f)
    (hne : ∀ k, k < pre.length → q.usageInDrive + sizeSum (pre.take (k + 1)) ≠ q.limit)
    (hlast : q.usageInDrive + sizeSum pre + fBad.size ≠ q.limit)
    (hbad : ¬ uploadOk fBad) :
    ∃ m calls,
      processFiles (some q) (pre ++ fBad :: post) e = (BatchOutcome.serverError m, calls)
      ∧ (∀ id, DriveCall.deleteFile id ∉ calls)
      ∧ (∀ j, pre.length < j → DriveCall.openFile j ∉ calls) := by
  obtain ⟨m, hm⟩ := processFiles_failure_at q pre fBad post e hok hne hlast hbad
  refine ⟨m, _, hm, ?_, ?_⟩
  · intro id hmem
    rcases List.mem_cons.mp hmem with h | h
    · exact DriveCall.noConfusion h
    rcases List.mem_append.mp h with h | h
    · exact deleteFile_not_mem_opensCreates id 0 pre.length h
    · cases hop : fBad.openOk <;> rw [hop] at h <;> simp at h
  · intro j hj hmem
    rcases List.mem_cons.mp hmem with h | h
    · exact DriveCall.noConfusion h
    rcases List.mem_append.mp h with h | h
    · exact openFile_not_mem_opensCreates j 0 pre.length (by omega) h
    · cases hop : fBad.openOk <;> rw [hop] at h <;> simp at h <;> omega

/-- Witness for `upload_failure_500_no_rollback`: one successful file
followed by one whose create call fails, well under quota. -/
theorem upload_failure_500_no_rollback_witness :
    ∃ m calls,
      processFiles (some ⟨100, 0⟩)
          ([⟨"a.png", 3, true, some ⟨"A", "http://a"⟩⟩]
            ++ (⟨"b.png", 4, true, none⟩ : FileHeader) :: [])
          "Hello"
        = (BatchOutcome.serverError m, calls)
      ∧ (∀ id, DriveCall.deleteFile id ∉ calls)
      ∧ (∀ j, ([⟨"a.png", 3, true, some ⟨"A", "http://a"⟩⟩] : List FileHeader).length < j →
          DriveCall.openFile j ∉ calls) :=
  upload_failure_500_no_rollback ⟨100, 0⟩
    [⟨"a.png", 3, true, some ⟨"A", "http://a"⟩⟩]
    ⟨"b.png", 4, true, none⟩ [] "Hello"
    (by decide) (by decide) (by decide) (by decide)

/-- Counterexample to claim C3 as stated: with quota limit 10 and usage 0,
a single file of size 11 pushes the projected usage strictly past the
limit without ever equaling it; the handler does NOT abort — it opens and
uploads the file and completes the batch with its link attached. -/
theorem quota_overshoot_not_aborted_cex :
    (processFiles (some ⟨10, 0⟩) [⟨"big.bin", 11, true, some ⟨"G", "http://g"⟩⟩] "t").1
      = BatchOutcome.completed "t\nAttached files:\n- http://g"
    ∧ DriveCall.openFile 0
        ∈ (processFiles (some ⟨10, 0⟩) [⟨"big.bin", 11, true, some ⟨"G", "http://g"⟩⟩] "t").2 := by
  decide

/-- Claim C3 (amended): for a batch whose per-file calls all succeed, the
serial handler aborts with the quota-exceeded outcome if and only if at
some position the running projected usage becomes EXACTLY equal to
`quota.limit`; jumping strictly past the limit without equality is not
detected and the batch proceeds (the check at `src/api/main.go` line 211
is `==`, not `>=`). -/
theorem quota_abort_iff_exact_hit (q : StorageQuota) (files : List FileHeader)
    (e : String) (hok : ∀ f ∈ files, uploadOk f) :
    (processFiles (some q) files e).1 = BatchOutcome.insufficientStorage
      ↔ ∃ k, k < files.length
          ∧ q.usageInDrive + sizeSum (files.take (k + 1)) = q.limit := by
  constructor
  · intro habort
    by_contra hno
    push_neg at hno
    rcases Nat.eq_zero_or_pos files.length with h0 | hpos
    · have hnilf : files = [] := List.length_eq_zero.mp h0
      rw [hnilf, processFiles_nil] at habort
      exact BatchOutcome.noConfusion habort
    · rw [processFiles_all_ok q files e hpos hok (fun k hk => hno k hk)] at habort
      exact BatchOutcome.noConfusion habort
  · intro hex
    have hspec := Nat.find_spec hex
    have hne : ∀ k, k < Nat.find hex →
        q.usageInDrive + sizeSum (files.take (k + 1)) ≠ q.limit := by
      intro k hk heqk
      exact Nat.find_min hex hk ⟨Nat.lt_trans hk hspec.1, heqk⟩
    have hok2 : ∀ f ∈ files.take (Nat.find hex), uploadOk f :=
      fun f hf => hok f (List.take_subset _ _ hf)
    rw [processFiles_break_at q files e (Nat.find hex) hspec.1 hok2 hne hspec.2]

/-- Witness for `quota_abort_iff_exact_hit`: quota 0/7 with files of sizes
3 and 4 — the running usage hits exactly 7 at the second file, so the
batch aborts with the 507 outcome. -/
theorem quota_abort_iff_exact_hit_witness :
    (processFiles (some ⟨7, 0⟩)
        [⟨"a.png", 3, true, some ⟨"A", "http://a"⟩⟩, ⟨"b.png", 4, true, some ⟨"B", "http://b"⟩⟩]
        "t").1 = BatchOutcome.insufficientStorage :=
  (quota_abort_iff_exact_hit ⟨7, 0⟩
    [⟨"a.png", 3, true, some ⟨"A", "http://a"⟩⟩, ⟨"b.png", 4, true, some ⟨"B", "http://b"⟩⟩]
    "t" (by decide)).mpr ⟨1, by decide, by decide⟩

/-- Claim C5: for every non-empty batch in which all uploads succeed and
the total of `quota.used` plus the submitted sizes stays strictly below
`quota.limit` at every prefix, the handler succeeds with one link per
submitted file merged into the enquiry, and no deletion call is issued. -/
theorem under_quota_batch_succeeds (q : StorageQuota) (files : List FileHeader)
    (e : String) (hpos : 0 < files.length)
    (hok : ∀ f ∈ files, uploadOk f)
    (hlt : ∀ k, k ≤ files.length → q.usageInDrive + sizeSum (files.take k) < q.limit) :
    processFiles (some q) files e
      = (BatchOutcome.completed
            (mergeLinks e (files.map (fun f => (uploadedOf f).webContentLink))),
          DriveCall.aboutGet :: opensCreates 0 files.length)
    ∧ (files.map (fun f => (uploadedOf f).webContentLink)).length = files.length
    ∧ ∀ id, DriveCall.deleteFile id ∉ (processFiles (some q) files e).2 := by
  have hne : ∀ k, k < files.length →
      q.usageInDrive + sizeSum (files.take (k + 1)) ≠ q.limit :=
    fun k hk => ne_of_lt (hlt (k + 1) (by omega))
  have hmain := processFiles_all_ok q files e hpos hok hne
  have hmerge : mergeLinks e (files.map (fun f => (uploadedOf f).webContentLink))
      = appendAttachedFiles e (files.map linkBullet) := by
    unfold mergeLinks
    rw [if_pos (by simpa using hpos), List.map_map]
    rfl
  refine ⟨by rw [hmain, hmerge], by simp, ?_⟩
  rw [hmain]
  intro id hmem
  rcases List.mem_cons.mp hmem with h | h
  · exact DriveCall.noConfusion h
  · exact deleteFile_not_mem_opensCreates id 0 files.length h

/-- Witness for `under_quota_batch_succeeds`: two files of sizes 3 and 4
against a 0/100 quota — every prefix stays strictly below the limit. -/
theorem under_quota_batch_succeeds_witness :
    processFiles (some ⟨100, 0⟩)
        [⟨"a.png", 3, true, some ⟨"A", "http://a"⟩⟩, ⟨"b.png", 4, true, some ⟨"B", "http://b"⟩⟩]
        "Hello"
      = (BatchOutcome.completed
            (mergeLinks "Hello"
              (([⟨"a.png", 3, true, some ⟨"A", "http://a"⟩⟩,
                 ⟨"b.png", 4, true, some ⟨"B", "http://b"⟩⟩] : List FileHeader).map
                (fun f => (uploadedOf f).webContentLink))),
          DriveCall.aboutGet
            :: opensCreates 0
              ([⟨"a.png", 3, true, some ⟨"A", "http://a"⟩⟩,
                ⟨"b.png", 4, true, some ⟨"B", "http://b"⟩⟩] : List FileHeader).length) :=
  (under_quota_batch_succeeds ⟨100, 0⟩
    [⟨"a.png", 3, true, some ⟨"A", "http://a"⟩⟩, ⟨"b.png", 4, true, some ⟨"B", "http://b"⟩⟩]
    "Hello" (by decide) (by decide) (by decide)).1

/-- Claim C9: in the serial implementation, for every fully successful
batch (all per-file calls succeed and the running usage never hits the
limit), the accumulated upload results are in exactly the input order:
the i-th uploaded file is the create result of the i-th submitted file,
so the i-th link is the web content link of the file at input position i,
and the stored bullet list likewise follows input order. -/
theorem links_preserve_input_order (q : StorageQuota) (files : List FileHeader)
    (hok : ∀ f ∈ files, uploadOk f)
    (hne : ∀ k, k < files.length →
      q.usageInDrive + sizeSum (files.take (k + 1)) ≠ q.limit) :
    ((uploadLoop q.limit 0 files
        ⟨q.usageInDrive, [], [], [DriveCall.aboutGet]⟩).1).uploadedFiles
        = files.map uploadedOf
    ∧ (((uploadLoop q.limit 0 files
          ⟨q.usageInDrive, [], [], [DriveCall.aboutGet]⟩).1).uploadedFiles.map
          (fun f => f.webContentLink))
        = files.map (fun f => (uploadedOf f).webContentLink)
    ∧ ((uploadLoop q.limit 0 files
          ⟨q.usageInDrive, [], [], [DriveCall.aboutGet]⟩).1).uploadedFileLinks
        = files.map linkBullet := by
  rw [uploadLoop_all_ok q.limit files 0 ⟨q.usageInDrive, [], [], [DriveCall.aboutGet]⟩ hok hne]
  exact ⟨by simp, by simp [List.map_map], by simp⟩

/-- Witness for `links_preserve_input_order` at a concrete two-file batch. -/
theorem links_preserve_input_order_witness :
    ((uploadLoop 100 0
        [⟨"a.png", 3, true, some ⟨"A", "http://a"⟩⟩, ⟨"b.png", 4, true, some ⟨"B", "http://b"⟩⟩]
        ⟨0, [], [], [DriveCall.aboutGet]⟩).1).uploadedFiles
      = ([⟨"a.png", 3, true, some ⟨"A", "http://a"⟩⟩,
          ⟨"b.png", 4, true, some ⟨"B", "http://b"⟩⟩] : List FileHeader).map uploadedOf :=
  (links_preserve_input_order ⟨100, 0⟩
    [⟨"a.png", 3, true, some ⟨"A", "http://a"⟩⟩, ⟨"b.png", 4, true, some ⟨"B", "http://b"⟩⟩]
    (by decide) (by decide)).1

/-- Claim C10: on every failure path of the handler — multipart parse
error, field-validation error, quota-query error, per-file upload error,
or quota exhaustion — the handler returns before the notification email
step, so a notification email appears in the call trace if and only if
the handler ended with the success outcome. -/
theorem email_only_after_success (req : Request) :
    (∃ a enq, Call.sendEmail a enq ∈ (handler req).2)
      ↔ ∃ enq, (handler req).1 = HandlerResult.ok enq := by
  unfold handler
  split
  · simp
  · split
    · simp
    · split
      · simp [List.mem_map]
      · simp [List.mem_map]
      · split
        · simp [List.mem_map]
        · split
          · simp [List.mem_map]
          · simp [List.mem_map]

/-- Witness for `email_only_after_success` at a concrete successful
request with no files. -/
theorem email_only_after_success_witness :
    (∃ a enq, Call.sendEmail a enq
        ∈ (handler ⟨true, [], "x@y.z", "Hi", [], none, some 1, "hey@skulpture.xyz"⟩).2)
      ↔ ∃ enq, (handler ⟨true, [], "x@y.z", "Hi", [], none, some 1, "hey@skulpture.xyz"⟩).1
          = HandlerResult.ok enq :=
  email_only_after_success ⟨true, [], "x@y.z", "Hi", [], none, some 1, "hey@skulpture.xyz"⟩

namespace Concurrent

/-!
Small-step model of the goroutine-based revision of the handler,
`src/unnamed/part_000` lines 205-291.  That revision spawns one
`uploadFile` goroutine per file (lines 261-264), a closer goroutine that
waits on the `sync.WaitGroup` and then closes the two channels
(lines 266-270), and the handler goroutine itself, which runs a
non-blocking `select` on `uploadCtx.Done()` (lines 272-284) and then
drains the `uploadedFiles` channel (lines 274-278 on the cancelled
branch, 287-289 on the default branch).

Both channels are unbuffered, so a send is a rendezvous with a receiver.
The crucial structural facts carried over from the source:
  * `failedToUpload` is NEVER received from anywhere — it is only closed
    (line 269); hence a worker blocked at `failedToUpload <- idx`
    (lines 225, 250) can never complete that send.
  * a failing worker performs that send BEFORE calling `cancel()`
    (lines 225-228 and 250-253), so in a run where a worker fails the
    context is never cancelled; neither the `cancel()` call nor the
    `uploadCtx.Done()` branches are ever reachable, though they are all
    represented below.
-/

/-- Control point of one `uploadFile` goroutine
(`src/unnamed/part_000` lines 211-260). -/
inductive WStatus where
  | ctxCheck
  | atOpen
  | atCreate
  | sendFailed
  | cancelThenDone
  | sendUploaded (res : DriveFile)
  | done
deriving DecidableEq

/-- One spawned worker: the file it was given and where it stands. -/
structure Worker where
  fileHeader : FileHeader
  st : WStatus
deriving DecidableEq

/-- Control point of the handler goroutine
(`src/unnamed/part_000` lines 272-291). -/
inductive MStatus where
  | atSelect
  | drain
  | drainRollback
  | returnedError
  | proceeded
deriving DecidableEq

/-- Global configuration: the workers, the handler goroutine, whether the
closer goroutine has closed the channels (it does so once the WaitGroup
has drained, lines 266-270), whether `cancel()` has fired, the bullet
lines the handler has collected (line 288) and the ids handed to the
fire-and-forget `Files.Delete` calls (lines 275-277). -/
structure Config where
  workers : List Worker
  mst : MStatus
  chansClosed : Bool
  canceled : Bool
  links : List String
  deletes : List String
deriving DecidableEq

/-- All configurations reachable by letting some worker that is blocked
sending on `uploadedFiles` complete its rendezvous: returns, for each such
worker, the worker list with that worker retired together with the sent
file.  (A send on an unbuffered channel completes exactly when the
receiver takes the value.) -/
def pickSenders : List Worker → List (List Worker × DriveFile)
  | [] => []
  | w :: ws =>
    match w.st with
    | WStatus.sendUploaded r =>
      ({ w with st := WStatus.done } :: ws, r)
        :: (pickSenders ws).map (fun p => (w :: p.1, p.2))
    | _ => (pickSenders ws).map (fun p => (w :: p.1, p.2))

/-- Whether no worker is currently blocked sending on `uploadedFiles`;
together with `chansClosed` this is when the handler's `range` loop over
the channel terminates. -/
def noSenders (ws : List Worker) : Bool :=
  ws.all (fun w =>
    match w.st with
    | WStatus.sendUploaded _ => false
    | _ => true)

/-- All single-step moves available to the worker goroutines themselves
(`src/unnamed/part_000` lines 211-260): the entry cancellation check
(lines 214-218), `fileHeader.Open()` (lines 222-230), `Files.Create`
(lines 233-255), and — were a send on `failedToUpload` ever to complete,
which requires a receiver that does not exist — the `cancel()` call before
returning (lines 225-229, 250-254).  A worker blocked in `sendFailed` has
no move of its own, and `sendUploaded` waits for the handler's rendezvous. -/
def workerSteps : List Worker → Bool → List (List Worker)
  | [], _ => []
  | w :: ws, canceled =>
    let tail := (workerSteps ws canceled).map (fun l => w :: l)
    match w.st with
    | WStatus.ctxCheck =>
      ((if canceled then { w with st := WStatus.done }
        else { w with st := WStatus.atOpen }) :: ws) :: tail
    | WStatus.atOpen =>
      ((if w.fileHeader.openOk then { w with st := WStatus.atCreate }
        else { w with st := WStatus.sendFailed }) :: ws) :: tail
    | WStatus.atCreate =>
      ((match w.fileHeader.createRes with
        | some r => { w with st := WStatus.sendUploaded r }
        | none => { w with st := WStatus.sendFailed }) :: ws) :: tail
    | WStatus.cancelThenDone =>
      ({ w with st := WStatus.done } :: ws) :: tail
    | _ => tail

/-- All single-step moves of the handler goroutine: the non-blocking
`select` on `uploadCtx.Done()` (lines 272-283), receiving from
`uploadedFiles` while draining — collecting a `"- %s"` bullet on the
normal path (line 288) or issuing a rollback `Files.Delete` on the
cancelled path (lines 274-278) — and leaving the drain loop once the
channel is closed and empty. -/
def mainSteps (c : Config) : List Config :=
  match c.mst with
  | MStatus.atSelect =>
    [{ c with mst := if c.canceled then MStatus.drainRollback else MStatus.drain }]
  | MStatus.drain =>
    (pickSenders c.workers).map (fun p =>
      { c with workers := p.1, links := c.links ++ ["- " ++ p.2.webContentLink] })
      ++ (if c.chansClosed ∧ noSenders c.workers then
            [{ c with mst := MStatus.proceeded }]
          else [])
  | MStatus.drainRollback =>
    (pickSenders c.workers).map (fun p =>
      { c with workers := p.1, deletes := c.deletes ++ [p.2.id] })
      ++ (if c.chansClosed ∧ noSenders c.workers then
            [{ c with mst := MStatus.returnedError }]
          else [])
  | _ => []

/-- The closer goroutine's single move (`src/unnamed/part_000`
lines 266-270): once every worker has returned (`fileUploadWg.Wait()`),
close both channels. -/
def closerSteps (c : Config) : List Config :=
  if c.workers.all (fun w => w.st == WStatus.done) && !c.chansClosed then
    [{ c with chansClosed := true }]
  else []

/-- Every configuration reachable in one step of any goroutine: the full
nondeterministic transition relation of the model. -/
def enabled (c : Config) : List Config :=
  mainSteps c ++ closerSteps c
    ++ (workerSteps c.workers c.canceled).map (fun ws => { c with workers := ws })

/-- One fixed fair schedule: always take the first enabled move.  Any run
of `run` is one legal interleaving of the real program. -/
def run : Nat → Config → Config
  | 0, c => c
  | n + 1, c =>
    match (enabled c).head? with
    | none => c
    | some c2 => run n c2

/-- The stress scenario of the claim: 50 files, the first one failing its
`Files.Create` call, the other 49 succeeding. -/
def scenarioWorkers : List Worker :=
  (List.range 50).map (fun i =>
    if i = 0 then ⟨⟨"f0", 1, true, none⟩, WStatus.ctxCheck⟩
    else ⟨⟨"f" ++ toString i, 1, true,
            some ⟨"id" ++ toString i, "http://f" ++ toString i⟩⟩, WStatus.ctxCheck⟩)

/-- Initial configuration right after the spawn loop
(`src/unnamed/part_000` lines 261-270). -/
def scenario : Config :=
  { workers := scenarioWorkers, mst := MStatus.atSelect, chansClosed := false,
    canceled := false, links := [], deletes := [] }

end Concurrent

/-- Claim C8 (the code contradicts it): in the concurrent revision of the
handler (`src/unnamed/part_000`), a batch of 50 uploads with exactly one
failing worker does NOT roll the other 49 back — the run deadlocks.  The
failing worker blocks forever sending on `failedToUpload` (which nothing
ever receives) before it can call `cancel()`; the WaitGroup therefore
never drains, the channels are never closed, and the handler goroutine
blocks forever in its drain loop.  Concretely: the exhibited maximal
execution ends stuck (no goroutine can move), with the failing worker not
terminated, zero deletion calls issued, and the handler still inside the
drain loop, having never returned. -/
theorem concurrent_one_failure_deadlocks :
    Concurrent.enabled (Concurrent.run 300 Concurrent.scenario) = []
    ∧ ((Concurrent.run 300 Concurrent.scenario).workers.any
        (fun w => w.st != Concurrent.WStatus.done)) = true
    ∧ (Concurrent.run 300 Concurrent.scenario).deletes = []
    ∧ (Concurrent.run 300 Concurrent.scenario).mst = Concurrent.MStatus.drain := by
  decide
